import Mathlib

/-!
Verification of the ExecSignals lead pipeline
(`generate_hot_leads.py` and `generate_monday_brief.py`).

The Python code is shallowly embedded: dict rows become structures,
Python strings are Lean strings manipulated through their character
lists, SQL dates and datetimes become day numbers in `ℤ`, and the
fractional seniority ranks / salary statistics live in `ℚ`.  `None`
becomes `Option.none`, and Python's truthiness on numbers and strings
is modelled explicitly where the source relies on it.
-/

namespace ExecSignals

/-! ## Python string primitives

All title/company matching in the source is done on lowercased,
optionally stripped strings via `str.lower`, `str.startswith`,
`in` (substring test), slicing `[:n]` and `str.strip`.  They are
modelled on the character list of the string. -/

/-- Python `s.lower()` (ASCII case folding, which is all the data uses). -/
def pyLower (s : String) : String := String.mk (s.data.map Char.toLower)

/-- Python `s.startswith(p)`. -/
def pyStartsWith (p s : String) : Bool := p.data.isPrefixOf s.data

/-- Occurrence test for a character sequence inside another. -/
def containsSeq (needle hay : List Char) : Bool :=
  (List.range (hay.length + 1)).any fun i => needle.isPrefixOf (hay.drop i)

/-- Python `sub in s`. -/
def pyContainsSub (sub s : String) : Bool := containsSeq sub.data s.data

/-- Python slice `s[:n]` (first `n` characters). -/
def pyTake (n : Nat) (s : String) : String := String.mk (s.data.take n)

/-- Python `s.strip()`: remove leading and trailing whitespace. -/
def pyStrip (s : String) : String :=
  String.mk ((((s.data.dropWhile Char.isWhitespace).reverse.dropWhile
    Char.isWhitespace).reverse))

/-- Python `x or d` for an optional number: `None` and `0` are falsy. -/
def pyOrInt (o : Option Int) (d : Int) : Int :=
  match o with
  | some v => if v = 0 then d else v
  | none => d

/-- Python `x or d` for an optional string: `None` and `""` are falsy. -/
def pyOrStr (o : Option String) (d : String) : String :=
  match o with
  | some v => if v = ("") then d else v
  | none => d

/-! ## generate_hot_leads.py: configuration tables

`SENIORITY_RANK` maps tier names to ranks; the code stores the rank of
`head_of`/`head` as the float `3.5`, embedded here as the rational
`7/2` (written `Rat.divInt 7 2` so that comparisons compute). -/

/-- Seniority tiers in rank order, as in `SENIORITY_RANK` (dict insertion
order is observable through `get_seniority_tiers_at_or_above`). -/
def SENIORITY_RANK : List (String × ℚ) :=
  [(("c_level"), 7), (("evp"), 6), (("svp"), 5), (("vp"), 4),
   (("head_of"), Rat.divInt 7 2), (("head"), Rat.divInt 7 2),
   (("senior_director"), 3), (("director"), 2),
   (("senior_manager"), 1), (("manager"), 0)]

/-- `HOT_HIRING_SIGNALS` set. -/
def HOT_HIRING_SIGNALS : List String := [("growth_hire"), ("build_team")]

/-- `HOT_TEAM_SIGNALS` set. -/
def HOT_TEAM_SIGNALS : List String :=
  [("reports_ceo"), ("reports_cro"), ("first_hire"), ("build_team")]

/-- Membership in `HOT_HIRING_SIGNALS | HOT_TEAM_SIGNALS` (the set union
used for the multi-signal richness bonus). -/
def isHotGrowthSignal (sid : String) : Bool :=
  HOT_HIRING_SIGNALS.contains sid || HOT_TEAM_SIGNALS.contains sid

/-- `SCORE_BASE`. -/
def SCORE_BASE : Int := 10

/-- `SCORE_SENIORITY_BONUS` lookup table. -/
def SCORE_SENIORITY_BONUS : List (String × Int) :=
  [(("c_level"), 15), (("evp"), 12), (("svp"), 10), (("vp"), 5),
   (("head_of"), 3), (("head"), 3), (("senior_director"), 1), (("director"), 0)]

/-- `SCORE_SIGNAL_BONUS` lookup table. -/
def SCORE_SIGNAL_BONUS : List (String × Int) :=
  [(("reports_ceo"), 10), (("first_hire"), 8), (("reports_cro"), 6),
   (("build_team"), 5), (("growth_hire"), 4), (("immediate"), 2),
   (("turnaround"), 1)]

/-- `SCORE_SALARY_THRESHOLDS`, ordered descending; first matching
threshold wins. -/
def SCORE_SALARY_THRESHOLDS : List (Int × Int) :=
  [(300000, 10), (200000, 7), (150000, 4), (100000, 2)]

/-! ## Seniority tier selection (`get_seniority_tiers_at_or_above`,
and the fallback logic at the top of `fetch_hot_leads`) -/

/-- `get_seniority_tiers_at_or_above`: all tiers whose rank is at least
the rank of `min_seniority`; an unknown tier gets default rank `0`
(`SENIORITY_RANK.get(min_seniority, 0)`). -/
def get_seniority_tiers_at_or_above (min_seniority : String) : List String :=
  let min_rank : ℚ := (SENIORITY_RANK.lookup min_seniority).getD 0
  (SENIORITY_RANK.filter (fun p => min_rank ≤ p.2)).map Prod.fst

/-- The tier list `fetch_hot_leads` actually queries: the fallback to
`vp` happens only when `get_seniority_tiers_at_or_above` returns an
empty list. -/
def fetchTiersQueried (min_seniority : String) : List String :=
  let tiers := get_seniority_tiers_at_or_above min_seniority
  if tiers = [] then get_seniority_tiers_at_or_above ("vp") else tiers

/-- Whether `fetch_hot_leads` prints the "Unknown seniority tier ...,
defaulting to vp+" warning (tied to the same emptiness test). -/
def fetchWarningEmitted (min_seniority : String) : Bool :=
  get_seniority_tiers_at_or_above min_seniority = []

/-! ## Lead rows and the scoring engine (`score_lead`) -/

/-- A row of the `job_signals` table attached to a lead. -/
structure Signal where
  signal_type : String
  signal_id : String
deriving DecidableEq

/-- A lead dict as produced by `fetch_hot_leads` (only the fields the
verified functions read), plus the `score` field the pipeline adds.
Day numbers stand in for ISO date strings. -/
structure Lead where
  title : Option String
  company_name_normalized : Option String
  seniority_tier : String
  signals : List Signal
  annual_salary_min : Option Int
  annual_salary_max : Option Int
  company_stage : Option String
  date_posted : Option Int
  score : Int
deriving DecidableEq

/-- One iteration of the signal-bonus loop of `score_lead`: the
accumulator carries the running score contribution and the
`seen_signals` set (as a list). -/
def signalStep (acc : Int × List String) (sig : Signal) : Int × List String :=
  if acc.2.contains sig.signal_id then acc
  else (acc.1 + (SCORE_SIGNAL_BONUS.lookup sig.signal_id).getD 0,
        sig.signal_id :: acc.2)

/-- The signal-bonus loop of `score_lead`: each signal id is counted
once (a `seen_signals` set suppresses duplicates), with bonus `0` for
ids missing from `SCORE_SIGNAL_BONUS`. -/
def signalBonusTotal (signals : List Signal) : Int :=
  (signals.foldl signalStep (0, [])).1

/-- The "multiple growth signals" bonus of `score_lead`: `+5` when the
list `[s for s in signals if s.signal_id in HOT_HIRING_SIGNALS |
HOT_TEAM_SIGNALS]` has length at least 3.  Note the list is not
deduplicated by signal id. -/
def multiGrowthBonus (signals : List Signal) : Int :=
  if 3 ≤ (signals.filter (fun s => isHotGrowthSignal s.signal_id)).length
  then 5 else 0

/-- `max_salary = lead.get("annual_salary_max") or
lead.get("annual_salary_min") or 0` (Python `or`, so a `0` salary also
falls through). -/
def bestSalary (lead : Lead) : Int :=
  pyOrInt lead.annual_salary_max (pyOrInt lead.annual_salary_min 0)

/-- The salary-threshold loop: first (highest) threshold met or
exceeded wins, then `break`. -/
def salaryBonus : Int → List (Int × Int) → Int
  | _, [] => 0
  | s, (threshold, bonus) :: rest =>
      if threshold ≤ s then bonus else salaryBonus s rest

/-- The company-stage bonus: `+2` when `company_stage` is truthy and its
lowercase form contains "series" or "growth". -/
def stageBonus (stage : Option String) : Int :=
  match stage with
  | none => 0
  | some st =>
      if st = ("") then 0
      else
        let s := pyLower st
        if pyContainsSub ("series") s || pyContainsSub ("growth") s then 2 else 0

/-- `score_lead`: base score plus seniority, per-distinct-signal,
multi-growth-signal, salary-threshold and company-stage bonuses. -/
def score_lead (lead : Lead) : Int :=
  SCORE_BASE
    + (SCORE_SENIORITY_BONUS.lookup lead.seniority_tier).getD 0
    + signalBonusTotal lead.signals
    + multiGrowthBonus lead.signals
    + salaryBonus (bestSalary lead) SCORE_SALARY_THRESHOLDS
    + stageBonus lead.company_stage

/-- Number of distinct signal ids on the lead that belong to the
growth-indicating union set (the quantity the spec says gates the
multi-signal bonus). -/
def distinctHotSignalCount (signals : List Signal) : Nat :=
  (((signals.map Signal.signal_id).filter isHotGrowthSignal).dedup).length

/-! ## generate_monday_brief.py: seniority correction -/

/-- The early-return whitelist of `correct_seniority`: title patterns
that confirm an actual C-level role (checked on the lowercased,
stripped title). -/
def confirmsClevelTitle (t : String) : Bool :=
  pyStartsWith ("chief ") t
  || pyStartsWith ("ceo") t || pyStartsWith ("cfo") t || pyStartsWith ("coo") t
  || pyStartsWith ("cto") t || pyStartsWith ("cio") t || pyStartsWith ("cmo") t
  || pyStartsWith ("cro") t || pyStartsWith ("cso") t || pyStartsWith ("cpo") t
  || pyStartsWith ("president") t || pyContainsSub ("president and") t
  || pyContainsSub ("president &") t
  || pyStartsWith ("executive director") t
  || pyStartsWith ("general counsel") t || pyStartsWith ("managing director") t
  || (pyContainsSub ("founding") t
      && (pyContainsSub ("president") t || pyContainsSub ("ceo") t
          || pyContainsSub ("chief") t))

/-- The `downgrade_patterns` list of `correct_seniority`. -/
def downgradePatterns : List String :=
  [("director,"), ("director "), ("sr. director"), ("senior director"),
   ("manager,"), ("manager "), ("sr. manager"), ("senior manager"),
   ("coordinator"), ("analyst"), ("specialist"), ("associate"),
   ("advisor"), ("intern"), ("assistant")]

/-- One `downgrade_patterns` test: `title.startswith(pattern) or
f" {pattern}" in title[:30]`. -/
def matchesDowngradePattern (t : String) : Bool :=
  downgradePatterns.any fun p =>
    pyStartsWith p t || pyContainsSub ((" ") ++ p) (pyTake 30 t)

/-- The lowercased, stripped title `correct_seniority` inspects. -/
def normalizedTitle (lead : Lead) : String :=
  pyStrip (pyLower (lead.title.getD ("")))

/-- `correct_seniority`: only `c_level` leads are touched; a whitelist
match keeps the tier, otherwise a downgrade-pattern match rewrites the
tier to `vp`, otherwise the scraper's classification is kept.  The
in-place mutation is modelled by returning the updated lead. -/
def correct_seniority (lead : Lead) : Lead :=
  if lead.seniority_tier ≠ ("c_level") then lead
  else
    let t := normalizedTitle lead
    if confirmsClevelTitle t then lead
    else if matchesDowngradePattern t then { lead with seniority_tier := ("vp") }
    else lead

/-! ## False-positive filter (`is_false_positive`) -/

/-- The title tests of `is_false_positive`, on the lowercased title. -/
def fpTitle (t : String) : Bool :=
  pyContainsSub ("certification program") t
  || pyContainsSub ("future leaders program") t
  || pyContainsSub ("internship") t
  || pyStartsWith ("intern ") t || pyStartsWith ("intern-") t
  || pyContainsSub ("in-training") t || pyContainsSub ("-in-training") t

/-- `is_false_positive`: lowercases `lead.get("title") or ""` and tests
the non-job patterns. -/
def is_false_positive (lead : Lead) : Bool :=
  fpTitle (pyLower (lead.title.getD ("")))

/-! ## Freshness bonus (`apply_freshness_bonus`) -/

/-- `apply_freshness_bonus`: score adjustment from days between the
reference date and the posting date.  `date_posted = none` stands for
both a missing date and an unparseable one (`ValueError`); in either
case the score is untouched. -/
def apply_freshness_bonus (lead : Lead) (ref_date : Int) : Lead :=
  match lead.date_posted with
  | none => lead
  | some posted =>
      let days_ago := ref_date - posted
      if days_ago ≤ 2 then { lead with score := lead.score + 10 }
      else if days_ago ≤ 4 then { lead with score := lead.score + 5 }
      else if days_ago ≤ 7 then { lead with score := lead.score + 2 }
      else if 14 < days_ago then { lead with score := lead.score - 5 }
      else lead

/-! ## Deduplication (`deduplicate_leads`) -/

/-- The dedup key: `((company_name_normalized or "").lower(),
(title or "").lower())`. -/
def dedupKey (lead : Lead) : String × String :=
  (pyLower (lead.company_name_normalized.getD ("")),
   pyLower (lead.title.getD ("")))

/-- One step of the `seen` dict update: Python dicts keep the original
insertion position of a key, and `seen[key] = lead` happens only when
the key is new or the incoming score is strictly greater. -/
def dictInsert (k : String × String) (v : Lead) :
    List ((String × String) × Lead) → List ((String × String) × Lead)
  | [] => [(k, v)]
  | (k0, v0) :: rest =>
      if k0 = k then (if v0.score < v.score then (k0, v) else (k0, v0)) :: rest
      else (k0, v0) :: dictInsert k v rest

/-- The `seen` dict after the loop of `deduplicate_leads`, as an
insertion-ordered association list. -/
def seenFold (leads : List Lead) : List ((String × String) × Lead) :=
  leads.foldl (fun acc l => dictInsert (dedupKey l) l acc) []

/-- `deduplicate_leads`: values of `seen`, re-sorted descending by
score.  Python's stable `list.sort` is modelled by a stable insertion
sort. -/
def deduplicate_leads (leads : List Lead) : List Lead :=
  List.insertionSort (fun a b => b.score ≤ a.score)
    ((seenFold leads).map Prod.snd)

/-- The stage of `main` the false-positive contract is about: dedup
first, then the `is_false_positive` filter (top-N truncation comes
after). -/
def dedupThenFilter (leads : List Lead) : List Lead :=
  (deduplicate_leads leads).filter (fun l => !(is_false_positive l))

/-! ## Market analytics: rows, rounding and percentiles

Dates (`date_posted`, `date_scraped`, SQL `date('now')`) are embedded
as day numbers in `ℤ`; ISO date-string comparison in SQL agrees with
the numeric order.  Python `round` is banker's rounding; `int()`
truncates toward zero. -/

/-- Python `round(q)`: nearest integer, ties to even. -/
def pyRound (q : ℚ) : Int :=
  let f := ⌊q⌋
  let r := q - (f : ℚ)
  if r < Rat.divInt 1 2 then f
  else if Rat.divInt 1 2 < r then f + 1
  else if f % 2 = 0 then f else f + 1

/-- Python `round(q, 1)`. -/
def pyRound1 (q : ℚ) : ℚ := Rat.divInt (pyRound (q * 10)) 10

/-- Python `int(q)`: truncation toward zero. -/
def pyTrunc (q : ℚ) : Int := if q < 0 then -⌊-q⌋ else ⌊q⌋

/-- List indexing `values[i]` for the percentile computation.
Out-of-range indexing (impossible for the percentiles the pipeline
requests: `0 ≤ (n-1)·p/100 ≤ n-1` for `p` in 25/50/75) reads `0`. -/
def listAtNat : List ℚ → Nat → ℚ
  | [], _ => 0
  | x :: _, 0 => x
  | _ :: l, Nat.succ n => listAtNat l n

/-- `_percentile`: linear interpolation on an already sorted list.
`math.floor`/`math.ceil` are `⌊⌋`/`⌈⌉`; in the `f == c` branch `k` is an
integer, so Python's truncating `int(k)` agrees with `pyTrunc`. -/
def percentile (values : List ℚ) (pct : ℚ) : ℚ :=
  if values = [] then 0
  else
    let k : ℚ := ((values.length : ℚ) - 1) * (pct / 100)
    let f : ℤ := ⌊k⌋
    let c : ℤ := ⌈k⌉
    if f = c then listAtNat values (pyTrunc k).toNat
    else listAtNat values f.toNat * ((c : ℚ) - k)
      + listAtNat values c.toNat * (k - (f : ℚ))

/-- A row of the `jobs` table (the columns the analytics read).
`is_remote` is the raw SQL value: `0`, `1` or `NULL`. -/
structure Job where
  id : Int
  title : String
  company_name_normalized : Option String
  location_metro : Option String
  location_type : Option String
  is_remote : Option Int
  annual_salary_max : Option Int
  seniority_tier : String
  function_category : Option String
  company_industry : Option String
  company_stage : Option String
  date_posted : Option Int
  date_scraped : Int
  is_active : Bool
deriving DecidableEq

/-- A row of the `job_tools` table. -/
structure ToolRow where
  job_id : Int
  tool_name : Option String
deriving DecidableEq

/-- The queried database state. -/
structure DB where
  jobs : List Job
  tools : List ToolRow
deriving DecidableEq

/-- `VP_TIERS`. -/
def VP_TIERS : List String := [("vp"), ("svp"), ("evp"), ("c_level")]

/-- `FUNCTION_TO_ROLE` mapping, in dict insertion order. -/
def FUNCTION_TO_ROLE : List (String × String) :=
  [(("sales"), ("VP Sales")), (("finance"), ("CFO")),
   (("engineering"), ("VP Engineering")), (("marketing"), ("VP Marketing")),
   (("operations"), ("VP Operations")), (("product"), ("VP Product")),
   (("people"), ("VP People/HR")), (("data"), ("VP Data")),
   (("legal"), ("VP Legal"))]

/-- `ROLE_ORDER`. -/
def ROLE_ORDER : List String :=
  [("VP Sales"), ("CFO"), ("VP Engineering"), ("VP Marketing"),
   ("VP Operations"), ("VP Product"), ("VP People/HR")]

/-- `INDUSTRY_MAP`. -/
def INDUSTRY_MAP : List (String × String) :=
  [(("Banks And Financial Services"), ("Financial Services")),
   (("Health Care"), ("Healthcare")),
   (("Education And Schools"), ("Education")),
   (("Internet And Software"), ("Software / SaaS")),
   (("Government"), ("Government")),
   (("Organization"), ("Nonprofit")),
   (("Consulting And Business Services"), ("Consulting")),
   (("Media News And Publishing"), ("Media")),
   (("Restaurants Travel And Leisure"), ("Hospitality")),
   (("Insurance"), ("Insurance")),
   (("Real Estate"), ("Real Estate")),
   (("Transport And Freight"), ("Transport")),
   (("Retail"), ("Retail")),
   (("Consumer Goods And Services"), ("Consumer Goods")),
   (("Industrial Manufacturing"), ("Manufacturing")),
   (("Energy Mining And Utilities"), ("Energy")),
   (("Telecommunications"), ("Telecom")),
   (("Construction"), ("Construction")),
   (("Agriculture"), ("Agriculture")),
   (("Automotive"), ("Automotive"))]

/-- `STAGE_MAP`. -/
def STAGE_MAP : List (String × String) :=
  [(("enterprise"), ("Enterprise / Public")), (("public"), ("Enterprise / Public")),
   (("late_stage"), ("Late Stage")), (("late stage"), ("Late Stage")),
   (("growth"), ("Growth")), (("series_a"), ("Growth")), (("series_b"), ("Growth")),
   (("series_c"), ("Late Stage")), (("series_d"), ("Late Stage")),
   (("early_stage"), ("Early Stage")), (("early stage"), ("Early Stage")),
   (("seed"), ("Early Stage")), (("startup"), ("Early Stage"))]

/-- `SEARCH_FIRMS`. -/
def SEARCH_FIRMS : List String :=
  [("korn ferry"), ("heidrick & struggles"), ("heidrick and struggles"),
   ("spencer stuart"), ("russell reynolds"), ("egon zehnder"),
   ("boyden"), ("odgers berndtson"), ("stanton chase"), ("dhr international"),
   ("jm search"), ("witt/kieffer"), ("wittkieffer"), ("diversified search"),
   ("caldwell partners"), ("isaacson miller"),
   ("robert half"), ("randstad"), ("adecco"), ("manpower"), ("manpowergroup"),
   ("kelly services"), ("hays"), ("page executive"), ("michael page")]

/-- `COMPANY_BLOCKLIST`. -/
def COMPANY_BLOCKLIST : List String := [("futuresight")]

/-! ### Row predicates shared by the SQL WHERE clauses -/

/-- `is_active = 1 AND seniority_tier IN VP_TIERS`. -/
def activeVp (j : Job) : Bool := j.is_active && VP_TIERS.contains j.seniority_tier

/-- `date_posted >= cutoff` (false for SQL NULL). -/
def postedGE (j : Job) (cutoff : Int) : Bool :=
  match j.date_posted with
  | some d => cutoff ≤ d
  | none => false

/-- `date_posted <= bound` (false for SQL NULL). -/
def postedLE (j : Job) (bound : Int) : Bool :=
  match j.date_posted with
  | some d => d ≤ bound
  | none => false

/-- `date_posted < bound` (false for SQL NULL). -/
def postedLT (j : Job) (bound : Int) : Bool :=
  match j.date_posted with
  | some d => d < bound
  | none => false

/-- `(is_remote = 1 OR location_type LIKE '%remote%')`; SQL LIKE is
case-insensitive. -/
def remoteSql (j : Job) : Bool :=
  j.is_remote == some 1
  || (match j.location_type with
      | some t => pyContainsSub ("remote") (pyLower t)
      | none => false)

/-- `(is_remote = 0 OR is_remote IS NULL)`. -/
def notRemoteSql (j : Job) : Bool := j.is_remote == some 0 || j.is_remote == none

/-- Multiset of grouped counts (SQL `GROUP BY key, COUNT(*)`), keyed in
first-appearance order. -/
def bumpCount : List (String × Nat) → String → List (String × Nat)
  | [], k => [(k, 1)]
  | (k0, n) :: rest, k =>
      if k0 = k then (k0, n + 1) :: rest else (k0, n) :: bumpCount rest k

/-- Tally a list of group keys. -/
def tally (keys : List String) : List (String × Nat) := keys.foldl bumpCount []

/-- Dict lookup with default `0`. -/
def lookupCount (m : List (String × Nat)) (k : String) : Nat :=
  (m.lookup k).getD 0

/-- `ORDER BY cnt DESC` (stable on the first-appearance group order,
standing in for SQLite's unspecified tie order). -/
def sortDescByCount (rows : List (String × Nat)) : List (String × Nat) :=
  List.insertionSort (fun a b => b.2 ≤ a.2) rows

/-- `f"+{n}%"` / `f"{n}%"` week-over-week display. -/
def pctDisplay (n : Int) : String :=
  if 0 < n then ("+") ++ toString n ++ ("%") else toString n ++ ("%")

/-- Trend display for the rounded-to-one-decimal trend percentage
(decimal rendering of the Python float is abstracted by `toString`). -/
def trendDisplay (q : ℚ) : String :=
  if 0 < q then ("+") ++ toString q ++ ("%") else toString q ++ ("%")

/-- `f"${int(q / 1000)}K"`. -/
def moneyK (q : ℚ) : String := ("$") ++ toString (pyTrunc (q / 1000)) ++ ("K")

/-- `_get_data_reference_date`: latest `date_posted` among active rows,
else wall-clock now. -/
def dataReferenceDate (db : DB) (now : Int) : Int :=
  match ((db.jobs.filter Job.is_active).filterMap Job.date_posted).max? with
  | some d => d
  | none => now

/-! ### compute_salary_benchmarks -/

/-- One row of the salary benchmark output. -/
structure BenchmarkRow where
  role : String
  p25 : String
  median : String
  p75 : String
  p25_raw : ℚ
  median_raw : ℚ
  p75_raw : ℚ
  trend_pct : ℚ
  trend_display : String
  count : Nat
deriving DecidableEq

/-- `annual_salary_max > 0` (false for NULL). -/
def salMaxPos (j : Job) : Bool :=
  match j.annual_salary_max with
  | some v => 0 < v
  | none => false

/-- The `annual_salary_max` column of the matching rows, `ORDER BY
annual_salary_max` (ascending). -/
def sortedSalaries (rows : List Job) : List ℚ :=
  List.insertionSort (fun (a b : ℚ) => a ≤ b)
    (rows.map (fun j => ((j.annual_salary_max.getD 0 : Int) : ℚ)))

/-- `order_map.get(role, 99)`. -/
def roleOrderIdx (r : String) : Nat :=
  match ROLE_ORDER.findIdx? (fun x => x == r) with
  | some i => i
  | none => 99

/-- The benchmark row built for one `(func, role_name)` entry, or
`none` when the sample is too small (`len(salaries) < 3`). -/
def benchmarkFor (db : DB) (ref : Int) (func role_name : String) :
    Option BenchmarkRow :=
  let base := db.jobs.filter (fun j =>
    activeVp j && j.function_category == some func && salMaxPos j)
  let salaries := sortedSalaries base
  if salaries.length < 3 then none
  else
    let trend_cutoff := ref - 30
    let trend_prior := ref - 60
    let p25 := percentile salaries 25
    let med := percentile salaries 50
    let p75 := percentile salaries 75
    let recent := sortedSalaries (base.filter (fun j => postedGE j trend_cutoff))
    let prior := sortedSalaries (base.filter (fun j =>
      postedGE j trend_prior && postedLT j trend_cutoff))
    let trend_pct : ℚ :=
      if 3 ≤ recent.length ∧ 3 ≤ prior.length then
        let recent_median := percentile recent 50
        let prior_median := percentile prior 50
        if prior_median = 0 then 0
        else pyRound1 ((recent_median - prior_median) / prior_median * 100)
      else 0
    some { role := role_name, p25 := moneyK p25, median := moneyK med,
           p75 := moneyK p75, p25_raw := p25, median_raw := med,
           p75_raw := p75, trend_pct := trend_pct,
           trend_display := trendDisplay trend_pct, count := salaries.length }

/-- `compute_salary_benchmarks` (its `days` parameter is unused by the
source body; the trend windows are the fixed 30/60 days). -/
def computeSalaryBenchmarks (db : DB) (now : Int) (_days : Int) :
    List BenchmarkRow :=
  let ref := dataReferenceDate db now
  let benchmarks := FUNCTION_TO_ROLE.filterMap (fun fr =>
    if ROLE_ORDER.contains fr.2 then benchmarkFor db ref fr.1 fr.2 else none)
  List.insertionSort (fun a b => roleOrderIdx a.role ≤ roleOrderIdx b.role)
    benchmarks

/-! ### compute_industry_velocity -/

/-- One row of the industry velocity output. -/
structure VelocityRow where
  industry : String
  count : Nat
  wow_pct : Int
  wow_display : String
deriving DecidableEq

/-- `round((wc - wp) / wp * 100) if wp > 0 else 0`. -/
def wowPct (wc wp : Nat) : Int :=
  if 0 < wp then pyRound (((wc : Int) - (wp : Int) : Int) / (wp : ℚ) * 100)
  else 0

/-- `compute_industry_velocity`: counts per raw industry over the full
window, week-over-week change from fixed 7-day windows, display names
through `INDUSTRY_MAP`, top 8. -/
def computeIndustryVelocity (db : DB) (now : Int) (days : Int) :
    List VelocityRow :=
  let ref := dataReferenceDate db now
  let cutoff := ref - days
  let wow_current_start := ref - 7
  let wow_prior_start := ref - 14
  let base := db.jobs.filter (fun j => activeVp j && j.company_industry.isSome)
  let current := sortDescByCount (tally
    ((base.filter (fun j => postedGE j cutoff)).filterMap Job.company_industry))
  let wow_curr := tally ((base.filter (fun j =>
    postedGE j wow_current_start && postedLE j ref)).filterMap Job.company_industry)
  let wow_prev := tally ((base.filter (fun j =>
    postedGE j wow_prior_start && postedLT j wow_current_start)).filterMap
      Job.company_industry)
  let velocity := current.map (fun rc =>
    let wow := wowPct (lookupCount wow_curr rc.1) (lookupCount wow_prev rc.1)
    { industry := (INDUSTRY_MAP.lookup rc.1).getD rc.1, count := rc.2,
      wow_pct := wow, wow_display := pctDisplay wow })
  velocity.take 8

/-! ### compute_top_companies -/

/-- One row of the top-companies output. -/
structure CompanyRow where
  company : String
  count : Nat
  is_new : Bool
deriving DecidableEq

/-- `compute_top_companies`: count distinct titles per company over the
full window (`HAVING unique_roles >= 3`, `LIMIT 30`), flag companies
absent from the prior 7-day window as new, drop search firms and
blocklisted names, keep 10. -/
def computeTopCompanies (db : DB) (now : Int) (days : Int) : List CompanyRow :=
  let ref := dataReferenceDate db now
  let cutoff := ref - days
  let wow_current_start := ref - 7
  let wow_prior_start := ref - 14
  let currentRows := db.jobs.filter (fun j =>
    activeVp j && j.company_name_normalized.isSome && postedGE j cutoff)
  let names := (currentRows.filterMap Job.company_name_normalized).dedup
  let counts := names.map (fun nm =>
    (nm, (((currentRows.filter (fun j => j.company_name_normalized == some nm)).map
      Job.title).dedup).length))
  let current := (sortDescByCount (counts.filter (fun c => 3 ≤ c.2))).take 30
  let priorRows := db.jobs.filter (fun j =>
    activeVp j && j.company_name_normalized.isSome
      && postedGE j wow_prior_start && postedLT j wow_current_start)
  let prior_set := (priorRows.filterMap Job.company_name_normalized).dedup
  let companies := current.filterMap (fun c =>
    if SEARCH_FIRMS.contains (pyStrip (pyLower c.1)) then none
    else if COMPANY_BLOCKLIST.contains (pyStrip (pyLower c.1)) then none
    else some { company := c.1, count := c.2,
                is_new := !(prior_set.contains c.1) })
  companies.take 10

/-! ### compute_geo_breakdown -/

/-- One row of the geo breakdown output. -/
structure GeoRow where
  metro : String
  count : Nat
  wow_pct : Int
  wow_display : String
deriving DecidableEq

/-- `compute_geo_breakdown`: non-remote counts per metro (top 10), a
remote bucket, week-over-week change from fixed 7-day windows, sorted
by count, top 8. -/
def computeGeoBreakdown (db : DB) (now : Int) (days : Int) : List GeoRow :=
  let ref := dataReferenceDate db now
  let cutoff := ref - days
  let wow_current_start := ref - 7
  let wow_prior_start := ref - 14
  let metroBase := db.jobs.filter (fun j =>
    activeVp j && j.location_metro.isSome && notRemoteSql j)
  let current_metro := (sortDescByCount (tally
    ((metroBase.filter (fun j => postedGE j cutoff)).filterMap
      Job.location_metro))).take 10
  let remote_count := (db.jobs.filter (fun j =>
    activeVp j && remoteSql j && postedGE j cutoff)).length
  let wow_curr := tally ((metroBase.filter (fun j =>
    postedGE j wow_current_start && postedLE j ref)).filterMap Job.location_metro)
  let wow_prev := tally ((metroBase.filter (fun j =>
    postedGE j wow_prior_start && postedLT j wow_current_start)).filterMap
      Job.location_metro)
  let wow_curr_remote := (db.jobs.filter (fun j =>
    activeVp j && remoteSql j && postedGE j wow_current_start
      && postedLE j ref)).length
  let wow_prev_remote := (db.jobs.filter (fun j =>
    activeVp j && remoteSql j && postedGE j wow_prior_start
      && postedLT j wow_current_start)).length
  let geo := current_metro.map (fun rc =>
    let wow := wowPct (lookupCount wow_curr rc.1) (lookupCount wow_prev rc.1)
    { metro := rc.1, count := rc.2, wow_pct := wow,
      wow_display := pctDisplay wow })
  let remote_wow := wowPct wow_curr_remote wow_prev_remote
  let geo := geo ++ [{ metro := ("Remote"), count := remote_count,
                       wow_pct := remote_wow,
                       wow_display := pctDisplay remote_wow }]
  (List.insertionSort (fun (a b : GeoRow) => b.count ≤ a.count) geo).take 8

/-! ### compute_company_stage -/

/-- One row of the company-stage output. -/
structure StageRow where
  stage : String
  count : Nat
  pct : Int
deriving DecidableEq

/-- Bucket assignment for one normalized stage string (`STAGE_MAP`
lookup, then the partial-matching chain, else `Unknown`). -/
def stageBucketName (stage_raw : String) : String :=
  match STAGE_MAP.lookup stage_raw with
  | some mapped => mapped
  | none =>
      if stage_raw ≠ ("") then
        if pyContainsSub ("enterprise") stage_raw
            || pyContainsSub ("public") stage_raw then ("Enterprise / Public")
        else if pyContainsSub ("late") stage_raw
            || pyContainsSub ("series c") stage_raw
            || pyContainsSub ("series d") stage_raw then ("Late Stage")
        else if pyContainsSub ("growth") stage_raw
            || pyContainsSub ("series a") stage_raw
            || pyContainsSub ("series b") stage_raw then ("Growth")
        else if pyContainsSub ("early") stage_raw
            || pyContainsSub ("seed") stage_raw
            || pyContainsSub ("startup") stage_raw then ("Early Stage")
        else ("Unknown")
      else ("Unknown")

/-- The five fixed bucket names, in output order. -/
def stageNames : List String :=
  [("Enterprise / Public"), ("Late Stage"), ("Growth"), ("Early Stage"),
   ("Unknown")]

/-- `compute_company_stage`: rows in the window grouped by raw stage,
each group's count added to its bucket, then percentages of the total.
The SQL `GROUP BY company_stage` granularity does not affect the
additive bucket totals. -/
def computeCompanyStage (db : DB) (now : Int) (days : Int) : List StageRow :=
  let ref := dataReferenceDate db now
  let cutoff := ref - days
  let rows := db.jobs.filter (fun j => activeVp j && postedGE j cutoff)
  let groups := tally (rows.map (fun j => j.company_stage.getD ("")))
  let total := rows.length
  stageNames.map (fun name =>
    let bucket := (groups.filter (fun g =>
      stageBucketName (pyStrip (pyLower g.1)) == name)).foldl
        (fun a g => a + g.2) 0
    { stage := name, count := bucket,
      pct := if 0 < total then pyRound ((bucket : ℚ) / (total : ℚ) * 100)
             else 0 })

/-! ### compute_stack_trends -/

/-- One row of the stack-trends output. -/
structure ToolCountRow where
  tool : String
  count : Nat
  pct : Int
deriving DecidableEq

/-- `tool_name IS NOT NULL AND tool_name <> '' AND LOWER(tool_name) <>
'_none'`. -/
def toolNameOk (t : ToolRow) : Bool :=
  match t.tool_name with
  | some nm => nm ≠ ("") && pyLower nm ≠ ("_none")
  | none => false

/-- `compute_stack_trends`: tools joined to qualifying jobs (`id` is the
jobs primary key, so the join is a lookup), grouped by tool name with
distinct-job counts, top 8, with percentages of the window's VP+ total. -/
def computeStackTrends (db : DB) (now : Int) (days : Int) : List ToolCountRow :=
  let ref := dataReferenceDate db now
  let cutoff := ref - days
  let jobOk := fun (j : Job) => activeVp j && postedGE j cutoff
  let pairs := db.tools.filterMap (fun t =>
    if toolNameOk t then
      match db.jobs.find? (fun j => j.id == t.job_id && jobOk j) with
      | some _ => some (t.tool_name.getD (""), t.job_id)
      | none => none
    else none)
  let names := (pairs.map Prod.fst).dedup
  let grouped := names.map (fun nm =>
    (nm, (((pairs.filter (fun p => p.1 == nm)).map Prod.snd).dedup).length))
  let top := (sortDescByCount grouped).take 8
  let total := (db.jobs.filter jobOk).length
  top.map (fun rc =>
    { tool := rc.1, count := rc.2,
      pct := if 0 < total then pyRound ((rc.2 : ℚ) / (total : ℚ) * 100)
             else 0 })

/-! ### compute_remote_function_counts and compute_all_analytics -/

/-- `compute_remote_function_counts`: remote VP+ roles per function.
Unlike every other component, its date window is anchored on SQL
`date('now', '-days days')`, i.e. on wall-clock time, not on the data
reference date. -/
def computeRemoteFunctionCounts (db : DB) (now : Int) (days : Int) :
    List (String × Nat) :=
  let cutoff := now - days
  tally ((db.jobs.filter (fun j =>
    VP_TIERS.contains j.seniority_tier && j.is_active && remoteSql j
      && cutoff ≤ j.date_scraped && j.function_category.isSome)).filterMap
        Job.function_category)

/-- The dict returned by `compute_all_analytics`. -/
structure Analytics where
  salary_benchmarks : List BenchmarkRow
  industry_velocity : List VelocityRow
  top_companies : List CompanyRow
  geo_breakdown : List GeoRow
  company_stage : List StageRow
  stack_trends : List ToolCountRow
  remote_function_counts : List (String × Nat)
deriving DecidableEq

/-- `compute_all_analytics`: salary benchmarks with `days=14`, all
other components with the lead-selection window. -/
def compute_all_analytics (db : DB) (now : Int) (lead_days : Int) : Analytics :=
  { salary_benchmarks := computeSalaryBenchmarks db now 14,
    industry_velocity := computeIndustryVelocity db now lead_days,
    top_companies := computeTopCompanies db now lead_days,
    geo_breakdown := computeGeoBreakdown db now lead_days,
    company_stage := computeCompanyStage db now lead_days,
    stack_trends := computeStackTrends db now lead_days,
    remote_function_counts := computeRemoteFunctionCounts db now lead_days }

/-! ## Repost detection (`compute_repost_counts`) -/

/-- The WHERE clause of `compute_repost_counts`. -/
def repostRowOk (j : Job) : Bool :=
  VP_TIERS.contains j.seniority_tier && j.is_active
    && j.company_name_normalized.isSome

/-- The grouping key `(LOWER(company_name_normalized), LOWER(title))`. -/
def repostRowKey (j : Job) : String × String :=
  (pyLower (j.company_name_normalized.getD ("")), pyLower j.title)

/-- `COUNT(DISTINCT date(date_scraped))` for one group key. -/
def distinctScrapeDates (db : DB) (k : String × String) : Nat :=
  ((((db.jobs.filter repostRowOk).filter (fun j => repostRowKey j == k)).map
    Job.date_scraped).dedup).length

/-- The dict produced by `compute_repost_counts` combined with the
`repost_counts.get(key, 0)` read in `main`: groups kept by
`HAVING scrape_count > 1`, all other keys reading `0`. -/
def repostCountsGet (db : DB) (k : String × String) : Nat :=
  let c := distinctScrapeDates db k
  if 1 < c then c else 0

/-- The `repost_count` value `main` attaches to a lead. -/
def leadRepostCount (db : DB) (lead : Lead) : Nat :=
  repostCountsGet db (dedupKey lead)

/-! ## Concrete fixtures used by the evaluation theorems -/

/-- A lead with every optional field empty and score `0`. -/
def blankLead : Lead :=
  { title := none, company_name_normalized := none, seniority_tier := (""),
    signals := [], annual_salary_min := none, annual_salary_max := none,
    company_stage := none, date_posted := none, score := 0 }

/-- A lead carrying the same growth signal three times. -/
def leadDupGrowth : Lead :=
  { blankLead with signals :=
      [⟨("hiring_signals"), ("growth_hire")⟩,
       ⟨("hiring_signals"), ("growth_hire")⟩,
       ⟨("hiring_signals"), ("growth_hire")⟩] }

/-- The same lead carrying the growth signal once. -/
def leadOneGrowth : Lead :=
  { blankLead with signals := [⟨("hiring_signals"), ("growth_hire")⟩] }

/-- Three distinct growth-indicating signals. -/
def sigsThreeDistinct : List Signal :=
  [⟨("team_structure"), ("reports_ceo")⟩,
   ⟨("hiring_signals"), ("growth_hire")⟩,
   ⟨("team_structure"), ("first_hire")⟩]

/-- The c-level-tagged subordinate title from the spec example. -/
def leadDirCeo : Lead :=
  { blankLead with
    seniority_tier := ("c_level")
    title := some ("Director, CEO Initiatives") }

/-- The true C-level title from the spec example. -/
def leadChief : Lead :=
  { blankLead with
    seniority_tier := ("c_level")
    title := some ("Chief Executive Officer") }

/-- A stale lead (posted long before any reference date used below). -/
def leadStale : Lead :=
  { blankLead with date_posted := some 0 }

/-- A jobs row template for repost fixtures. -/
def jobAcme : Job :=
  { id := 1, title := ("VP of Sales"), company_name_normalized := some ("Acme"),
    location_metro := none, location_type := none, is_remote := none,
    annual_salary_max := none, seniority_tier := ("vp"),
    function_category := none, company_industry := none, company_stage := none,
    date_posted := some 10, date_scraped := 10, is_active := true }

/-- The same (company, title) pair scraped on three distinct dates. -/
def dbRepost3 : DB :=
  { jobs := [jobAcme, { jobAcme with id := 2, date_scraped := 20 },
             { jobAcme with id := 3, date_scraped := 30 }],
    tools := [] }

/-- The same pair appearing five times on a single scrape date. -/
def dbRepost1 : DB :=
  { jobs := [jobAcme, { jobAcme with id := 2 }, { jobAcme with id := 3 },
             { jobAcme with id := 4 }, { jobAcme with id := 5 }],
    tools := [] }

/-- The lead the repost counts get attached to in `main`. -/
def leadAcme : Lead :=
  { blankLead with
    title := some ("VP of Sales")
    company_name_normalized := some ("Acme") }

/-! ## C1: the multi-signal richness bonus -/

/-- C1 counterexample: the claim says the 5-point bonus is added exactly
when at least 3 *distinct* growth-indicating signal ids are present and
that duplicates do not count; but a lead whose tags carry the single id
`growth_hire` three times already receives the bonus (`score_lead` is 19
= base 10 + signal bonus 4 + multi-signal bonus 5), with only one
distinct qualifying id. -/
theorem multiSignalBonus_distinct_claim_false :
    multiGrowthBonus leadDupGrowth.signals = 5 ∧
    distinctHotSignalCount leadDupGrowth.signals = 1 ∧
    ¬ 3 ≤ distinctHotSignalCount leadDupGrowth.signals ∧
    score_lead leadDupGrowth = 19 ∧
    distinctHotSignalCount leadOneGrowth.signals =
      distinctHotSignalCount leadDupGrowth.signals ∧
    score_lead leadOneGrowth = 14 := by decide

/-- C1 (amended): in `score_lead`, the flat 5-point multi-signal bonus
is added exactly when the lead's tags contain at least 3 occurrences
(counted with multiplicity) of signal ids drawn from the union of the
hot hiring-signal and hot team-structure sets; at least 3 distinct
qualifying ids therefore still guarantee the bonus, but duplicate
occurrences of one id also count toward the threshold. -/
theorem multiSignalBonus_counts_occurrences (signals : List Signal) :
    (multiGrowthBonus signals = 5 ↔
      3 ≤ (signals.filter (fun s => isHotGrowthSignal s.signal_id)).length) ∧
    (3 ≤ distinctHotSignalCount signals → multiGrowthBonus signals = 5) := by
  constructor
  · by_cases h : 3 ≤ (signals.filter (fun s => isHotGrowthSignal s.signal_id)).length
    · simp [multiGrowthBonus, h]
    · simp [multiGrowthBonus, h]
  · intro h
    have hmap : ((signals.map Signal.signal_id).filter isHotGrowthSignal).length
        = (signals.filter (fun s => isHotGrowthSignal s.signal_id)).length := by
      rw [List.filter_map, List.length_map]
      rfl
    have hdedup : distinctHotSignalCount signals ≤
        ((signals.map Signal.signal_id).filter isHotGrowthSignal).length :=
      (List.dedup_sublist _).length_le
    have h3 : 3 ≤ (signals.filter (fun s => isHotGrowthSignal s.signal_id)).length := by
      omega
    simp [multiGrowthBonus, h3]

/-- C1 witness: three distinct growth-indicating signals earn the bonus. -/
theorem multiSignalBonus_three_distinct_applied :
    multiGrowthBonus sigsThreeDistinct = 5 :=
  (multiSignalBonus_counts_occurrences sigsThreeDistinct).2 (by decide)

/-! ## C2: unknown minimum-seniority fallback -/

/-- C2: for the unknown tier string "intern",
`get_seniority_tiers_at_or_above` defaults the rank to `0` and therefore
returns every tier (down to `manager`), so the queried tier set is not
the `vp`-and-above set and the non-empty result means the
"defaulting to vp+" warning branch never fires. -/
theorem unknown_seniority_queries_all_tiers :
    fetchTiersQueried ("intern") =
      [("c_level"), ("evp"), ("svp"), ("vp"), ("head_of"), ("head"),
       ("senior_director"), ("director"), ("senior_manager"), ("manager")] ∧
    fetchWarningEmitted ("intern") = false ∧
    get_seniority_tiers_at_or_above ("vp") =
      [("c_level"), ("evp"), ("svp"), ("vp")] ∧
    fetchTiersQueried ("intern") ≠ get_seniority_tiers_at_or_above ("vp") := by
  decide

/-! ## C5: seniority correction -/

/-- C5: `correct_seniority` leaves non-`c_level` leads unchanged; on
`c_level` leads it first consults the confirming whitelist (keeping the
tier), then the subordinate-role downgrade patterns (rewriting the tier
to `vp`), and otherwise keeps the scraper's classification.  In
particular "Director, CEO Initiatives" is downgraded to `vp` and
"Chief Executive Officer" is kept at `c_level`. -/
theorem correct_seniority_cases :
    (∀ lead : Lead, lead.seniority_tier ≠ ("c_level") →
      correct_seniority lead = lead) ∧
    (∀ lead : Lead, lead.seniority_tier = ("c_level") →
      confirmsClevelTitle (normalizedTitle lead) = true →
      correct_seniority lead = lead) ∧
    (∀ lead : Lead, lead.seniority_tier = ("c_level") →
      confirmsClevelTitle (normalizedTitle lead) = false →
      matchesDowngradePattern (normalizedTitle lead) = true →
      correct_seniority lead = { lead with seniority_tier := ("vp") }) ∧
    (∀ lead : Lead, lead.seniority_tier = ("c_level") →
      confirmsClevelTitle (normalizedTitle lead) = false →
      matchesDowngradePattern (normalizedTitle lead) = false →
      correct_seniority lead = lead) ∧
    (correct_seniority leadDirCeo).seniority_tier = ("vp") ∧
    correct_seniority leadChief = leadChief := by
  refine ⟨?_, ?_, ?_, ?_, by decide, by decide⟩
  · intro lead h; simp [correct_seniority, h]
  · intro lead h hw; simp [correct_seniority, h, hw]
  · intro lead h hw hd; simp [correct_seniority, h, hw, hd]
  · intro lead h hw hd; simp [correct_seniority, h, hw, hd]

/-- C5 witness: the downgrade case applied to the spec's example title. -/
theorem correct_seniority_downgrade_witness :
    correct_seniority leadDirCeo = { leadDirCeo with seniority_tier := ("vp") } :=
  correct_seniority_cases.2.2.1 leadDirCeo (by decide) (by decide) (by decide)

/-! ## C7: score floor and the freshness penalty -/

/-- Association-list lookups over a table of non-negative values stay
non-negative. -/
lemma lookupD_nonneg (tbl : List (String × Int)) (h : ∀ p ∈ tbl, 0 ≤ p.2)
    (t : String) : 0 ≤ (tbl.lookup t).getD 0 := by
  induction tbl with
  | nil => simp [List.lookup]
  | cons hd tl ih =>
      rcases hd with ⟨k, v⟩
      cases hk : (t == k) with
      | true =>
          simp only [List.lookup, hk, Option.getD_some]
          exact h (k, v) (by simp)
      | false =>
          simp only [List.lookup, hk]
          exact ih fun p hp => h p (List.mem_cons_of_mem _ hp)

/-- The signal-bonus fold never decreases the accumulated score. -/
lemma signalFold_nonneg (signals : List Signal) (acc : Int × List String)
    (h : 0 ≤ acc.1) : 0 ≤ (signals.foldl signalStep acc).1 := by
  induction signals generalizing acc with
  | nil => simpa using h
  | cons sig rest ih =>
      refine ih _ ?_
      unfold signalStep
      split
      · exact h
      · have : 0 ≤ (SCORE_SIGNAL_BONUS.lookup sig.signal_id).getD 0 :=
          lookupD_nonneg _ (by decide) _
        simpa using add_nonneg h this

/-- The salary-threshold loop over a table of non-negative bonuses is
non-negative. -/
lemma salaryBonus_nonneg (s : Int) (tbl : List (Int × Int))
    (h : ∀ p ∈ tbl, 0 ≤ p.2) : 0 ≤ salaryBonus s tbl := by
  induction tbl with
  | nil => simp [salaryBonus]
  | cons hd tl ih =>
      rcases hd with ⟨threshold, bonus⟩
      unfold salaryBonus
      split
      · exact h (threshold, bonus) (by simp)
      · exact ih fun p hp => h p (List.mem_cons_of_mem _ hp)

/-- C7: `score_lead` is bounded below by `SCORE_BASE` (every bonus term
is non-negative); the brief variant's freshness adjustment changes the
score by one of `+10`, `+5`, `+2`, `0`, `-5`, goes negative only through the flat
`-5` penalty for postings more than 14 days before the reference date,
and is therefore the only step that can push the final score below the
base. -/
theorem score_floor_and_freshness_penalty :
    (∀ lead : Lead, SCORE_BASE ≤ score_lead lead) ∧
    (∀ (lead : Lead) (ref : Int),
      ((apply_freshness_bonus lead ref).score - lead.score) ∈
          ([10, 5, 2, 0, -5] : List Int) ∧
        ((apply_freshness_bonus lead ref).score < lead.score →
          ∃ d, lead.date_posted = some d ∧ 14 < ref - d ∧
            (apply_freshness_bonus lead ref).score = lead.score - 5)) ∧
    (∀ (lead : Lead) (ref : Int),
      (apply_freshness_bonus { lead with score := score_lead lead } ref).score
          < SCORE_BASE →
      ∃ d, lead.date_posted = some d ∧ 14 < ref - d ∧
        (apply_freshness_bonus { lead with score := score_lead lead } ref).score
          = score_lead lead - 5) := by
  have hbase : ∀ lead : Lead, SCORE_BASE ≤ score_lead lead := by
    intro lead
    have h1 : 0 ≤ (SCORE_SENIORITY_BONUS.lookup lead.seniority_tier).getD 0 :=
      lookupD_nonneg _ (by decide) _
    have h2 : 0 ≤ signalBonusTotal lead.signals :=
      signalFold_nonneg _ _ le_rfl
    have h3 : 0 ≤ multiGrowthBonus lead.signals := by
      unfold multiGrowthBonus; split <;> norm_num
    have h4 : 0 ≤ salaryBonus (bestSalary lead) SCORE_SALARY_THRESHOLDS :=
      salaryBonus_nonneg _ _ (by decide)
    have h5 : 0 ≤ stageBonus lead.company_stage := by
      unfold stageBonus
      cases lead.company_stage with
      | none => norm_num
      | some st => dsimp only; split
                   · norm_num
                   · split <;> norm_num
    unfold score_lead
    linarith
  have hfresh : ∀ (lead : Lead) (ref : Int),
      ((apply_freshness_bonus lead ref).score - lead.score) ∈
          ([10, 5, 2, 0, -5] : List Int) ∧
        ((apply_freshness_bonus lead ref).score < lead.score →
          ∃ d, lead.date_posted = some d ∧ 14 < ref - d ∧
            (apply_freshness_bonus lead ref).score = lead.score - 5) := by
    intro lead ref
    unfold apply_freshness_bonus
    cases hd : lead.date_posted with
    | none => simp
    | some d =>
        by_cases h2 : ref - d ≤ 2
        · simp [h2]
        · by_cases h4 : ref - d ≤ 4
          · simp [h2, h4]
          · by_cases h7 : ref - d ≤ 7
            · simp [h2, h4, h7]
            · by_cases h14 : 14 < ref - d
              · refine ⟨by simp [h2, h4, h7, h14], fun _ => ⟨d, rfl, h14, ?_⟩⟩
                simp [h2, h4, h7, h14]
              · constructor
                · simp [h2, h4, h7, h14]
                · intro hlt
                  exfalso
                  simp [h2, h4, h7, h14] at hlt
  refine ⟨hbase, hfresh, fun lead ref hlt => ?_⟩
  have h := (hfresh { lead with score := score_lead lead } ref).2 (by
    have hb := hbase lead
    simpa using lt_of_lt_of_le hlt hb)
  simpa using h

/-- C7 witness: a stale posting loses 5 points, landing below base. -/
theorem score_floor_witness :
    SCORE_BASE ≤ score_lead leadStale ∧
    ∃ d, leadStale.date_posted = some d ∧ 14 < (100 : Int) - d ∧
      (apply_freshness_bonus { leadStale with score := score_lead leadStale }
        100).score = score_lead leadStale - 5 :=
  ⟨score_floor_and_freshness_penalty.1 leadStale,
   score_floor_and_freshness_penalty.2.2 leadStale 100 (by decide)⟩

/-! ## C8: repost detection -/

/-- C8: `compute_repost_counts` keys `(lowercased company, lowercased
title)` to the number of distinct scrape dates on which the pair was
observed, and `main` attaches `0` for every pair not seen on at least 2
distinct dates; a pair scraped on 3 distinct dates reads `3`, a pair
appearing 5 times within a single scrape date reads `0`. -/
theorem repost_count_distinct_dates :
    (∀ (db : DB) (k : String × String),
      repostCountsGet db k =
        if 2 ≤ distinctScrapeDates db k then distinctScrapeDates db k else 0) ∧
    leadRepostCount dbRepost3 leadAcme = 3 ∧
    distinctScrapeDates dbRepost3 (dedupKey leadAcme) = 3 ∧
    leadRepostCount dbRepost1 leadAcme = 0 ∧
    (dbRepost1.jobs.filter (fun j =>
      repostRowOk j && (repostRowKey j == dedupKey leadAcme))).length = 5 := by
  refine ⟨fun db k => ?_, by decide, by decide, by decide, by decide⟩
  unfold repostCountsGet
  by_cases h : 1 < distinctScrapeDates db k
  · rw [if_pos h, if_pos (by omega)]
  · rw [if_neg h, if_neg (by omega)]

/-! ## C9: the percentile function -/

/-- Ceiling through floor, used to evaluate `⌈⌉` on rational literals. -/
lemma ceil_as_floor (q : ℚ) : (⌈q⌉ : ℤ) = -⌊-q⌋ := by
  simp [Int.floor_neg]

/-- C9: `_percentile` linearly interpolates between order statistics:
the interpolated midpoint of `[10, 20, 30, 40]` at the 50th percentile
is 25, a singleton list returns its element (at the 50th and at every
percentile, since `k = (1-1)·p/100 = 0`), and the empty list returns 0. -/
theorem percentile_interpolation_values :
    percentile [10, 20, 30, 40] 50 = 25 ∧
    percentile [5] 50 = 5 ∧
    percentile [] 50 = 0 ∧
    ∀ (x p : ℚ), percentile [x] p = x := by
  refine ⟨?_, ?_, ?_, ?_⟩
  · norm_num [percentile, pyTrunc, ceil_as_floor, listAtNat]
    simp
  · norm_num [percentile, pyTrunc, ceil_as_floor, listAtNat]
  · norm_num [percentile]
  · intro x p
    norm_num [percentile, pyTrunc, listAtNat]

/-! ## Deduplication proofs

`seenFold` is analysed through an invariant relating the `seen` dict to
the prefix of the input already processed: keys are distinct, every
entry holds the first input lead that attained the maximal score of its
key group, and every processed lead's key is present. -/

/-- Inserting a fresh key appends the pair at the end of the dict. -/
lemma dictInsert_keys_new (k : String × String) (v : Lead)
    (s : List ((String × String) × Lead)) (h : k ∉ s.map Prod.fst) :
    dictInsert k v s = s ++ [(k, v)] := by
  induction s with
  | nil => rfl
  | cons hd tl ih =>
      rcases hd with ⟨k0, v0⟩
      have hne : k0 ≠ k := by
        intro hEq
        exact h (by simp [hEq])
      have htl : k ∉ tl.map Prod.fst := fun hmem => h (by simp [hmem])
      simp [dictInsert, hne, ih htl]

/-- Inserting an existing key rewrites its first occurrence in place. -/
lemma dictInsert_decomp (k : String × String) (v : Lead)
    (s : List ((String × String) × Lead)) (h : k ∈ s.map Prod.fst) :
    ∃ s1 v0 s2, s = s1 ++ (k, v0) :: s2 ∧ k ∉ s1.map Prod.fst ∧
      dictInsert k v s =
        s1 ++ (k, if v0.score < v.score then v else v0) :: s2 := by
  induction s with
  | nil => simp at h
  | cons hd tl ih =>
      rcases hd with ⟨k0, v0⟩
      by_cases hk : k0 = k
      · subst hk
        refine ⟨[], v0, tl, by simp, by simp, ?_⟩
        by_cases hv : v0.score < v.score
        · simp [dictInsert, hv]
        · simp [dictInsert, hv]
      · have htl : k ∈ tl.map Prod.fst := by
          rcases List.mem_map.1 h with ⟨kv, hkv, hEq⟩
          rcases List.mem_cons.1 hkv with hhd | hmem
          · exact absurd (by rw [hhd] at hEq; exact hEq) hk
          · exact List.mem_map.2 ⟨kv, hmem, hEq⟩
        obtain ⟨s1, w0, s2, hsplit, hnot, hins⟩ := ih htl
        refine ⟨(k0, v0) :: s1, w0, s2, by simp [hsplit], ?_, ?_⟩
        · simp only [List.map_cons, List.mem_cons]
          rintro (hEq | hmem)
          · exact hk hEq.symm
          · exact hnot hmem
        · simp [dictInsert, hk, hins]

/-- The invariant carried through the `seen` loop: `pre` is the prefix
of the input processed so far. -/
def SeenInv (pre : List Lead) (s : List ((String × String) × Lead)) : Prop :=
  (s.map Prod.fst).Nodup ∧
  (∀ kv ∈ s, dedupKey kv.2 = kv.1 ∧
    (∃ as bs, pre = as ++ kv.2 :: bs ∧
      ∀ x ∈ as, dedupKey x = kv.1 → x.score < kv.2.score) ∧
    (∀ x ∈ pre, dedupKey x = kv.1 → x.score ≤ kv.2.score)) ∧
  (∀ x ∈ pre, ∃ kv, kv ∈ s ∧ kv.1 = dedupKey x)

/-- One loop iteration preserves the invariant. -/
lemma seenInv_step (pre : List Lead) (s : List ((String × String) × Lead))
    (l : Lead) (h : SeenInv pre s) :
    SeenInv (pre ++ [l]) (dictInsert (dedupKey l) l s) := by
  obtain ⟨hnd, hent, hcov⟩ := h
  by_cases hmem : dedupKey l ∈ s.map Prod.fst
  · obtain ⟨s1, v0, s2, hsplit, hs1, hins⟩ := dictInsert_decomp _ l s hmem
    have hkeysEq : (s1 ++ (dedupKey l,
        if v0.score < l.score then l else v0) :: s2).map Prod.fst
        = s.map Prod.fst := by
      simp [hsplit]
    obtain ⟨hkey0, ⟨as0, bs0, hpre0, hstrict0⟩, hmax0⟩ :=
      hent (dedupKey l, v0) (by rw [hsplit]; simp)
    have hnotk : ∀ kv ∈ s1 ++ s2, kv.1 ≠ dedupKey l := by
      intro kv hkv
      have hnd' := hnd
      rw [hsplit] at hnd'
      simp only [List.map_append, List.map_cons] at hnd'
      rcases List.mem_append.1 hkv with h1 | h2
      · intro hEq
        have : dedupKey l ∈ s1.map Prod.fst := by
          exact List.mem_map.2 ⟨kv, h1, hEq⟩
        exact hs1 this
      · intro hEq
        have hpair := (List.nodup_append.1 hnd').2.1
        have : kv.1 ∈ s2.map Prod.fst := List.mem_map.2 ⟨kv, h2, rfl⟩
        rw [hEq] at this
        exact (List.nodup_cons.1 hpair).1 this
    rw [hins]
    refine ⟨by rw [hkeysEq]; exact hnd, ?_, ?_⟩
    · intro kv hkv
      rcases List.mem_append.1 hkv with h1 | hrest
      · -- untouched entry left of the updated slot
        have hkvS : kv ∈ s := by rw [hsplit]; exact List.mem_append_left _ h1
        obtain ⟨hkey, ⟨as, bs, hpre, hstrict⟩, hmax⟩ := hent kv hkvS
        have hne := hnotk kv (List.mem_append_left _ h1)
        refine ⟨hkey, ⟨as, bs ++ [l], by rw [hpre]; simp, hstrict⟩, ?_⟩
        intro x hx hkx
        rcases List.mem_append.1 hx with hxp | hxl
        · exact hmax x hxp hkx
        · have : x = l := by simpa using hxl
          subst this
          exact absurd hkx.symm hne
      · rcases List.mem_cons.1 hrest with hupd | h2
        · -- the updated entry
          subst hupd
          by_cases hlt : v0.score < l.score
          · refine ⟨by simp [hlt], ⟨pre, [], by simp [hlt], ?_⟩, ?_⟩
            · intro x hx hkx
              simp only [hlt, if_pos]
              exact lt_of_le_of_lt (hmax0 x hx hkx) hlt
            · intro x hx hkx
              rcases List.mem_append.1 hx with hxp | hxl
              · simp only [hlt, if_pos]
                exact le_of_lt (lt_of_le_of_lt (hmax0 x hxp hkx) hlt)
              · have : x = l := by simpa using hxl
                subst this
                simp [hlt]
          · refine ⟨by simp [hlt, hkey0], ⟨as0, bs0 ++ [l], ?_, ?_⟩, ?_⟩
            · rw [hpre0]; simp [hlt]
            · intro x hx hkx
              simp only [hlt, if_neg, ite_false]
              exact hstrict0 x hx hkx
            · intro x hx hkx
              rcases List.mem_append.1 hx with hxp | hxl
              · simp only [hlt, ite_false]
                exact hmax0 x hxp hkx
              · have : x = l := by simpa using hxl
                subst this
                simp only [hlt, ite_false]
                exact le_of_not_lt hlt
        · -- untouched entry right of the updated slot
          have hkvS : kv ∈ s := by
            rw [hsplit]
            exact List.mem_append_right _ (List.mem_cons_of_mem _ h2)
          obtain ⟨hkey, ⟨as, bs, hpre, hstrict⟩, hmax⟩ := hent kv hkvS
          have hne := hnotk kv (List.mem_append_right _ h2)
          refine ⟨hkey, ⟨as, bs ++ [l], by rw [hpre]; simp, hstrict⟩, ?_⟩
          intro x hx hkx
          rcases List.mem_append.1 hx with hxp | hxl
          · exact hmax x hxp hkx
          · have : x = l := by simpa using hxl
            subst this
            exact absurd hkx.symm hne
    · intro x hx
      rcases List.mem_append.1 hx with hxp | hxl
      · obtain ⟨kv, hkv, hkeq⟩ := hcov x hxp
        have : kv.1 ∈ (s1 ++ (dedupKey l,
            if v0.score < l.score then l else v0) :: s2).map Prod.fst := by
          rw [hkeysEq]
          exact List.mem_map.2 ⟨kv, hkv, rfl⟩
        obtain ⟨kv', hkv', hkeq'⟩ := List.mem_map.1 this
        exact ⟨kv', hkv', by rw [hkeq']; exact hkeq⟩
      · have : x = l := by simpa using hxl
        subst this
        exact ⟨(dedupKey x, if v0.score < x.score then x else v0),
          by simp, rfl⟩
  · rw [dictInsert_keys_new _ l s hmem]
    refine ⟨?_, ?_, ?_⟩
    · rw [List.map_append]
      refine List.Nodup.append hnd (by simp) ?_
      intro a ha hb
      simp only [List.map_cons, List.map_nil, List.mem_singleton] at hb
      rw [hb] at ha
      exact hmem ha
    · intro kv hkv
      rcases List.mem_append.1 hkv with hin | hnew
      · obtain ⟨hkey, ⟨as, bs, hpre, hstrict⟩, hmax⟩ := hent kv hin
        refine ⟨hkey, ⟨as, bs ++ [l], by rw [hpre]; simp, hstrict⟩, ?_⟩
        intro x hx hkx
        rcases List.mem_append.1 hx with hxp | hxl
        · exact hmax x hxp hkx
        · have : x = l := by simpa using hxl
          subst this
          exfalso
          apply hmem
          rw [hkx]
          exact List.mem_map.2 ⟨kv, hin, rfl⟩
      · have : kv = (dedupKey l, l) := by simpa using hnew
        subst this
        refine ⟨rfl, ⟨pre, [], by simp, ?_⟩, ?_⟩
        · intro x hx hkx
          exfalso
          obtain ⟨kv', hkv', hkeq'⟩ := hcov x hx
          apply hmem
          have hkx' : dedupKey x = dedupKey l := by simpa using hkx
          rw [← hkx', ← hkeq']
          exact List.mem_map.2 ⟨kv', hkv', rfl⟩
        · intro x hx hkx
          rcases List.mem_append.1 hx with hxp | hxl
          · exfalso
            obtain ⟨kv', hkv', hkeq'⟩ := hcov x hxp
            apply hmem
            have hkx' : dedupKey x = dedupKey l := by simpa using hkx
            rw [← hkx', ← hkeq']
            exact List.mem_map.2 ⟨kv', hkv', rfl⟩
          · have : x = l := by simpa using hxl
            subst this
            exact le_rfl
    · intro x hx
      rcases List.mem_append.1 hx with hxp | hxl
      · obtain ⟨kv, hkv, hkeq⟩ := hcov x hxp
        exact ⟨kv, List.mem_append_left _ hkv, hkeq⟩
      · have : x = l := by simpa using hxl
        subst this
        exact ⟨(dedupKey x, x), by simp, rfl⟩

/-- The invariant holds after folding any remaining input. -/
lemma seenInv_fold (rest pre : List Lead)
    (s : List ((String × String) × Lead)) (h : SeenInv pre s) :
    SeenInv (pre ++ rest)
      (rest.foldl (fun acc x => dictInsert (dedupKey x) x acc) s) := by
  induction rest generalizing pre s with
  | nil => simpa using h
  | cons a rest ih =>
      have h' := seenInv_step pre s a h
      have := ih (pre ++ [a]) _ h'
      simpa using this

/-- The invariant for the full `seen` dict. -/
lemma seenInv_seenFold (leads : List Lead) : SeenInv leads (seenFold leads) := by
  have h0 : SeenInv [] [] := ⟨by simp, by simp, by simp⟩
  have := seenInv_fold leads [] [] h0
  simpa [seenFold] using this

/-- After dedup, keys are pairwise distinct. -/
lemma dedup_keys_nodup (leads : List Lead) :
    ((deduplicate_leads leads).map dedupKey).Nodup := by
  obtain ⟨hnd, hent, -⟩ := seenInv_seenFold leads
  have hmapEq : ((seenFold leads).map Prod.snd).map dedupKey
      = (seenFold leads).map Prod.fst := by
    rw [List.map_map]
    exact List.map_congr_left fun kv hkv => (hent kv hkv).1
  have hperm : (deduplicate_leads leads).Perm
      ((seenFold leads).map Prod.snd) :=
    List.perm_insertionSort _ _
  have := (hperm.map dedupKey).nodup_iff
  rw [hmapEq] at this
  exact this.2 hnd

/-- Every dedup survivor is the first input lead attaining the maximal
score of its key group. -/
lemma dedup_member_firstmax (leads : List Lead) :
    ∀ l ∈ deduplicate_leads leads,
      ∃ as bs, leads = as ++ l :: bs ∧
        (∀ x ∈ as, dedupKey x = dedupKey l → x.score < l.score) ∧
        (∀ x ∈ leads, dedupKey x = dedupKey l → x.score ≤ l.score) := by
  intro l hl
  obtain ⟨-, hent, -⟩ := seenInv_seenFold leads
  have hperm : (deduplicate_leads leads).Perm
      ((seenFold leads).map Prod.snd) :=
    List.perm_insertionSort _ _
  have hl' : l ∈ (seenFold leads).map Prod.snd := hperm.mem_iff.1 hl
  obtain ⟨kv, hkv, hsnd⟩ := List.mem_map.1 hl'
  obtain ⟨hkey, ⟨as, bs, hpre, hstrict⟩, hmax⟩ := hent kv hkv
  rw [hsnd] at hpre hstrict hmax hkey
  rw [← hkey] at hstrict hmax
  exact ⟨as, bs, hpre, hstrict, hmax⟩

/-- Every input lead's key is represented among the dedup survivors. -/
lemma dedup_covers (leads : List Lead) :
    ∀ x ∈ leads, ∃ l, l ∈ deduplicate_leads leads ∧
      dedupKey l = dedupKey x := by
  intro x hx
  obtain ⟨-, hent, hcov⟩ := seenInv_seenFold leads
  obtain ⟨kv, hkv, hkeq⟩ := hcov x hx
  have hperm : (deduplicate_leads leads).Perm
      ((seenFold leads).map Prod.snd) :=
    List.perm_insertionSort _ _
  refine ⟨kv.2, hperm.mem_iff.2 (List.mem_map.2 ⟨kv, hkv, rfl⟩), ?_⟩
  rw [(hent kv hkv).1, hkeq]

/-- The dedup output is sorted descending by score. -/
lemma dedup_sorted (leads : List Lead) :
    (deduplicate_leads leads).Pairwise (fun a b => b.score ≤ a.score) := by
  haveI : IsTotal Lead (fun a b => b.score ≤ a.score) :=
    ⟨fun a b => le_total b.score a.score⟩
  haveI : IsTrans Lead (fun a b => b.score ≤ a.score) :=
    ⟨fun _ _ _ hab hbc => le_trans hbc hab⟩
  exact List.sorted_insertionSort _ _

/-! ## C6: the deduplication contract -/

/-- C6: `deduplicate_leads` yields at most one lead per (lowercased
normalized company, lowercased title) key; each survivor is the
highest-scoring input lead of its key group, with the first-encountered
instance retained on ties (everything strictly earlier in the input
with the same key scores strictly less); every input key stays
represented; and the output is sorted descending by score. -/
theorem deduplicate_leads_spec (leads : List Lead) :
    ((deduplicate_leads leads).map dedupKey).Nodup ∧
    (∀ l ∈ deduplicate_leads leads,
      ∃ as bs, leads = as ++ l :: bs ∧
        (∀ x ∈ as, dedupKey x = dedupKey l → x.score < l.score) ∧
        (∀ x ∈ leads, dedupKey x = dedupKey l → x.score ≤ l.score)) ∧
    (∀ x ∈ leads, ∃ l, l ∈ deduplicate_leads leads ∧
      dedupKey l = dedupKey x) ∧
    (deduplicate_leads leads).Pairwise (fun a b => b.score ≤ a.score) :=
  ⟨dedup_keys_nodup leads, dedup_member_firstmax leads,
   dedup_covers leads, dedup_sorted leads⟩

/-- A scored copy of the Acme lead. -/
def leadAcme40 : Lead := { leadAcme with score := 40 }

/-- A lower-scoring duplicate of the same posting. -/
def leadAcme35 : Lead := { leadAcme with score := 35 }

/-- C6 witness: on a concrete two-lead input sharing one key, the key
survives dedup. -/
theorem deduplicate_leads_spec_witness :
    ∃ l, l ∈ deduplicate_leads [leadAcme35, leadAcme40] ∧
      dedupKey l = dedupKey leadAcme35 :=
  (deduplicate_leads_spec [leadAcme35, leadAcme40]).2.2.1 leadAcme35 (by decide)

/-! ## C10: dedup idempotence -/

/-- Folding a key-distinct input into a key-disjoint `seen` dict simply
appends each lead under its key. -/
lemma seenFoldAux_of_nodup_keys (l : List Lead) :
    ∀ s : List ((String × String) × Lead),
      (∀ k ∈ s.map Prod.fst, k ∉ l.map dedupKey) →
      (l.map dedupKey).Nodup →
      l.foldl (fun acc x => dictInsert (dedupKey x) x acc) s
        = s ++ l.map (fun x => (dedupKey x, x)) := by
  induction l with
  | nil => intro s _ _; simp
  | cons a rest ih =>
      intro s hdisj hnd
      have hnew : dedupKey a ∉ s.map Prod.fst := by
        intro hmem
        exact hdisj (dedupKey a) hmem (by simp)
      have hstep : dictInsert (dedupKey a) a s = s ++ [(dedupKey a, a)] :=
        dictInsert_keys_new _ _ _ hnew
      have hnd' : (rest.map dedupKey).Nodup := by
        simpa using (List.nodup_cons.1 (by simpa using hnd)).2
      have hdisj' : ∀ k ∈ (s ++ [(dedupKey a, a)]).map Prod.fst,
          k ∉ rest.map dedupKey := by
        intro k hk
        rw [List.map_append] at hk
        rcases List.mem_append.1 hk with hks | hka
        · intro hmem
          exact hdisj k hks (by simp [hmem])
        · have : k = dedupKey a := by simpa using hka
          subst this
          exact (List.nodup_cons.1 (by simpa using hnd)).1
      have := ih (s ++ [(dedupKey a, a)]) hdisj' hnd'
      simp only [List.foldl_cons, hstep]
      rw [this]
      simp

/-- On an input with pairwise-distinct keys, the `seen` dict is the
input itself. -/
lemma seenFold_of_nodup_keys (l : List Lead) (h : (l.map dedupKey).Nodup) :
    seenFold l = l.map (fun x => (dedupKey x, x)) := by
  have := seenFoldAux_of_nodup_keys l [] (by simp) h
  simpa [seenFold] using this

/-- On an input with pairwise-distinct keys, dedup is a permutation of
the input. -/
lemma dedup_perm_of_nodup_keys (l : List Lead) (h : (l.map dedupKey).Nodup) :
    (deduplicate_leads l).Perm l := by
  have hperm : (deduplicate_leads l).Perm ((seenFold l).map Prod.snd) :=
    List.perm_insertionSort _ _
  rw [seenFold_of_nodup_keys l h, List.map_map] at hperm
  have he : (Prod.snd ∘ fun x : Lead => (dedupKey x, x)) = fun x => x := rfl
  rw [he] at hperm
  simpa using hperm

/-- C10: deduplication is idempotent — re-running `deduplicate_leads`
on its own output returns the same set of leads (in fact a permutation,
and the survivor set is unchanged). -/
theorem deduplicate_leads_idempotent (leads : List Lead) :
    (deduplicate_leads (deduplicate_leads leads)).Perm
      (deduplicate_leads leads) :=
  dedup_perm_of_nodup_keys (deduplicate_leads leads) (dedup_keys_nodup leads)

/-! ## C4: the false-positive filter versus dedup slots -/

/-- C4: the false-positive test reads only the lowercased title, which
is exactly the second component of the dedup key, so two leads sharing
a dedup key are either both false positives or both legitimate — a
false positive can never occupy the dedup slot of a legitimate posting.
Moreover, in the `main` pipeline stage that runs dedup first and the
filter second (before top-N truncation), every legitimate input lead
keeps a legitimate same-key representative in the output. -/
theorem false_positive_never_wins_dedup_slot :
    (∀ l1 l2 : Lead, dedupKey l1 = dedupKey l2 →
      is_false_positive l1 = is_false_positive l2) ∧
    (∀ leads : List Lead, ∀ x ∈ leads, is_false_positive x = false →
      ∃ l, l ∈ dedupThenFilter leads ∧ dedupKey l = dedupKey x ∧
        is_false_positive l = false) := by
  have hkey : ∀ l1 l2 : Lead, dedupKey l1 = dedupKey l2 →
      is_false_positive l1 = is_false_positive l2 := by
    intro l1 l2 h
    have h2 : pyLower (l1.title.getD ("")) = pyLower (l2.title.getD ("")) :=
      congrArg Prod.snd h
    unfold is_false_positive
    rw [h2]
  refine ⟨hkey, fun leads x hx hfp => ?_⟩
  obtain ⟨l, hl, hkeq⟩ := dedup_covers leads x hx
  have hlfp : is_false_positive l = false := by
    rw [hkey l x hkeq]
    exact hfp
  refine ⟨l, ?_, hkeq, hlfp⟩
  unfold dedupThenFilter
  exact List.mem_filter.2 ⟨hl, by simp [hlfp]⟩

/-- C4 witness: a legitimate lead survives the dedup-then-filter stage. -/
theorem false_positive_filter_witness :
    ∃ l, l ∈ dedupThenFilter [leadAcme] ∧ dedupKey l = dedupKey leadAcme ∧
      is_false_positive l = false :=
  false_positive_never_wins_dedup_slot.2 [leadAcme] leadAcme (by decide)
    (by decide)

/-! ## C3: the analytics reference date versus wall-clock time -/

/-- The dataset has at least one active row with a posting date, so
`_get_data_reference_date` does not fall back to `datetime.now()`. -/
def hasActiveDated (db : DB) : Bool :=
  db.jobs.any (fun j => j.is_active && j.date_posted.isSome)

/-- With an active dated row present, the reference date is read from
the data alone. -/
lemma dataReferenceDate_wallclock_free (db : DB)
    (h : hasActiveDated db = true) (t1 t2 : Int) :
    dataReferenceDate db t1 = dataReferenceDate db t2 := by
  unfold dataReferenceDate
  cases hm : ((db.jobs.filter Job.is_active).filterMap Job.date_posted).max? with
  | some d => rfl
  | none =>
      exfalso
      rw [List.max?_eq_none_iff] at hm
      obtain ⟨j, hj, hcond⟩ := List.any_eq_true.1 h
      rw [Bool.and_eq_true] at hcond
      obtain ⟨hact, hsome⟩ := hcond
      obtain ⟨d, hd⟩ := Option.isSome_iff_exists.1 hsome
      have hmem : d ∈ (db.jobs.filter Job.is_active).filterMap Job.date_posted :=
        List.mem_filterMap.2 ⟨j, List.mem_filter.2 ⟨hj, hact⟩, hd⟩
      rw [hm] at hmem
      exact absurd hmem (List.not_mem_nil d)

/-- C3 (amended): every analytics component other than
`compute_remote_function_counts` consumes the wall clock only through
`_get_data_reference_date`, so on a dataset with at least one active
dated posting its output is identical at any two run times; the claim
fails for `compute_all_analytics` as a whole only because
`compute_remote_function_counts` anchors its window on SQL
`date('now')`. -/
theorem analytics_wallclock_free_except_remote (db : DB)
    (t1 t2 lead_days : Int) (h : hasActiveDated db = true) :
    computeSalaryBenchmarks db t1 14 = computeSalaryBenchmarks db t2 14 ∧
    computeIndustryVelocity db t1 lead_days
      = computeIndustryVelocity db t2 lead_days ∧
    computeTopCompanies db t1 lead_days = computeTopCompanies db t2 lead_days ∧
    computeGeoBreakdown db t1 lead_days = computeGeoBreakdown db t2 lead_days ∧
    computeCompanyStage db t1 lead_days = computeCompanyStage db t2 lead_days ∧
    computeStackTrends db t1 lead_days = computeStackTrends db t2 lead_days := by
  have hr := dataReferenceDate_wallclock_free db h t1 t2
  refine ⟨?_, ?_, ?_, ?_, ?_, ?_⟩
  · unfold computeSalaryBenchmarks
    rw [hr]
  · unfold computeIndustryVelocity
    rw [hr]
  · unfold computeTopCompanies
    rw [hr]
  · unfold computeGeoBreakdown
    rw [hr]
  · unfold computeCompanyStage
    rw [hr]
  · unfold computeStackTrends
    rw [hr]

/-- A dataset with one active remote VP posting. -/
def dbRemote : DB :=
  { jobs := [{ id := 1, title := ("VP of Sales"),
               company_name_normalized := some ("Acme"),
               location_metro := none, location_type := none,
               is_remote := some 1, annual_salary_max := none,
               seniority_tier := ("vp"), function_category := some ("sales"),
               company_industry := none, company_stage := none,
               date_posted := some 100, date_scraped := 100,
               is_active := true }],
    tools := [] }

/-- C3 counterexample: on a fixed database state, running
`compute_all_analytics` at wall-clock day 100 and at day 200 gives
different outputs — the remote-function counts see the posting inside
the 7-day `date('now')` window at the first run time and outside it at
the second. -/
theorem analytics_output_varies_with_wallclock :
    compute_all_analytics dbRemote 100 7 ≠ compute_all_analytics dbRemote 200 7 := by
  intro h
  have h2 := congrArg Analytics.remote_function_counts h
  have e1 : (compute_all_analytics dbRemote 100 7).remote_function_counts
      = [(("sales"), 1)] := by decide
  have e2 : (compute_all_analytics dbRemote 200 7).remote_function_counts
      = [] := by decide
  rw [e1, e2] at h2
  exact absurd h2 (by decide)

/-- C3 witness: the six data-anchored components agree across two run
times on a concrete dataset. -/
theorem analytics_wallclock_free_witness :
    hasActiveDated dbRemote = true ∧
    (computeSalaryBenchmarks dbRemote 100 14
        = computeSalaryBenchmarks dbRemote 200 14 ∧
      computeIndustryVelocity dbRemote 100 7
        = computeIndustryVelocity dbRemote 200 7 ∧
      computeTopCompanies dbRemote 100 7 = computeTopCompanies dbRemote 200 7 ∧
      computeGeoBreakdown dbRemote 100 7 = computeGeoBreakdown dbRemote 200 7 ∧
      computeCompanyStage dbRemote 100 7 = computeCompanyStage dbRemote 200 7 ∧
      computeStackTrends dbRemote 100 7 = computeStackTrends dbRemote 200 7) :=
  ⟨by decide, analytics_wallclock_free_except_remote dbRemote 100 200 7 (by decide)⟩

end ExecSignals
